import Mathlib

/-!
Verification development for the conversation participation-filtering pipeline
of the web-qms repository.

The embedding covers, translated from the source:
  - the Participation Evaluator (`hasAdminParticipation` in the edge function),
  - the Conversation Fetcher (`fetchConversationWithParts`),
  - the Search/Discovery cursor extraction and the Batch Orchestrator
    (the conversations endpoint of the edge function's `serve` handler),
  - the Client-Side Progressive Loader (`fetchConversationsProgressively`
    and the shared accumulator reset in `loadConversations`).

JavaScript dynamic values that the code inspects are modelled explicitly:
a field that may hold a string or a number is an `Option JsPrim`; JS
truthiness tests on those fields are `jsTruthy`; `parseInt(x, 10)` is
`jsParseInt` (returning `none` for NaN).  Upstream network I/O is
modelled by oracle parameters (a fetch function from conversation id to
result, a time oracle for the batch-boundary timeout checks, a response
oracle for the client loop), so every run of the embedded pipeline is a
pure computation over those oracles.
-/

namespace WebQms

/-- A dynamically-typed JSON scalar as the pipeline inspects it: either a
string or an (integral) number.  The upstream API emits ids and timestamps
in both representations. -/
inductive JsPrim where
  | str (s : String)
  | num (n : Int)
deriving DecidableEq

/-- JavaScript truthiness of a scalar: the empty string and the number 0
are falsy, every other string or number is truthy. -/
def jsTruthy : JsPrim → Bool
  | JsPrim.str s => s != ""
  | JsPrim.num n => n != 0

/-- JavaScript String(v) on a scalar: strings unchanged, integral numbers in
decimal notation. -/
def jsToString : JsPrim → String
  | JsPrim.str s => s
  | JsPrim.num n => toString n

/-- Numeric value of a list of decimal digit characters. -/
def digitsVal (l : List Char) : Nat :=
  l.foldl (fun a c => a * 10 + (c.toNat - '0'.toNat)) 0

/-- JavaScript parseInt(s, 10): skip leading whitespace, read an optional
sign and then the longest leading run of decimal digits; `none` models the
NaN result when no digit is found.  (Exotic Unicode whitespace is not
modelled; the code only ever feeds it ids.) -/
def jsParseInt (s : String) : Option Int :=
  let cs := s.toList.dropWhile (fun c => c = ' ' || c = '\t' || c = '\n' || c = '\r')
  let signAndRest : Bool × List Char :=
    match cs with
    | '-' :: r => (true, r)
    | '+' :: r => (false, r)
    | r => (false, r)
  let ds := signAndRest.2.takeWhile (fun c => c.isDigit)
  if ds.isEmpty then none
  else some (if signAndRest.1 then -(digitsVal ds : Int) else (digitsVal ds : Int))

/-- JS truthiness of an optional string (used for cursor fields: a missing
field and the empty string are both falsy). -/
def strTruthyOpt : Option String → Bool
  | some s => s != ""
  | none => false

/-- The author object of one message part: `author {type, id}`.  Either
field may be absent, and `id` may be a string or a number. -/
structure Author where
  type : Option String
  id : Option JsPrim
deriving DecidableEq

/-- One message part: `{author, created_at}` (the fields the evaluator
reads; `id`, `part_type` and `body` are never inspected by the pipeline
core).  `created_at` may be a number (seconds or milliseconds) or a
date string. -/
structure Part where
  author : Option Author
  created_at : Option JsPrim
deriving DecidableEq

/-- The observed shapes of a conversation's `conversation_parts` field:
either directly an array of parts, or a wrapper object whose
`conversation_parts` or `parts` field (when it is an array) holds them.
A wrapper with neither array present extracts to no parts. -/
inductive PartsShape where
  | arr (parts : List Part)
  | obj (conversation_parts : Option (List Part)) (parts : Option (List Part))
deriving DecidableEq

/-- A hydrated conversation: the fields the pipeline reads. -/
structure Conversation where
  id : Option String
  created_at : Option Int
  updated_at : Option Int
  conversation_parts : Option PartsShape
deriving DecidableEq

/-- Part extraction of `hasAdminParticipation`: unwrap the
`conversation_parts` field across the observed shapes (flat array,
wrapper with `conversation_parts` array, wrapper with `parts` array),
defaulting to no parts. -/
def extractParts (conversation : Conversation) : List Part :=
  match conversation.conversation_parts with
  | none => []
  | some (PartsShape.arr parts) => parts
  | some (PartsShape.obj cp p) =>
    match cp with
    | some parts => parts
    | none =>
      match p with
      | some parts => parts
      | none => []

/-- Timestamp normalization of the evaluator: a numeric `created_at` below
10,000,000,000 is taken as whole seconds, anything at or above is taken as
milliseconds and floor-divided by 1000 (JS Math.floor division). -/
def normTimestamp (t : Int) : Int :=
  if t < 10000000000 then t else t.fdiv 1000

/-- The `partTimestamp` computation of the evaluator: a falsy (absent, 0 or
empty-string) `created_at` yields no timestamp; a truthy number is
normalized; a truthy string goes through JS Date parsing, modelled by the
`jsDateSecs` oracle (whole seconds, `none` for an unparsable date). -/
def partTimestampOf (jsDateSecs : String → Option Int) (createdAt : Option JsPrim) : Option Int :=
  match createdAt with
  | none => none
  | some v =>
    if jsTruthy v then
      match v with
      | JsPrim.num t => some (normTimestamp t)
      | JsPrim.str s => jsDateSecs s
    else none

/-- The `authorId` computation of the evaluator: `author.id ? String(author.id) : null`.
A falsy id (absent, 0 or the empty string) yields `none`. -/
def authorIdString (idv : Option JsPrim) : Option String :=
  match idv with
  | none => none
  | some v => if jsTruthy v then some (jsToString v) else none

/-- The admin-id comparison of the evaluator: string equality of the
stringified author id against the target admin id, or numeric equality of
their parseInt values when both parse. -/
def isTargetAdmin (authorId adminId : String) : Bool :=
  authorId == adminId ||
    match jsParseInt adminId, jsParseInt authorId with
    | some adminIdNum, some authorIdNum => authorIdNum == adminIdNum
    | _, _ => false

/-- One loop iteration of `hasAdminParticipation`: a part contributes to
`partCount` when its author id is truthy, its timestamp is extractable and
nonzero (the code's `if (!partTimestamp) continue`), its author type is
"admin", the admin ids match, and the normalized timestamp lies in
[startTimestamp, endTimestamp] inclusive.  Each part is judged on its own;
a part failing any extraction step is skipped via `continue`. -/
def partQualifies (jsDateSecs : String → Option Int) (adminId : String)
    (startTimestamp endTimestamp : Int) (part : Part) : Bool :=
  let author := part.author.getD { type := none, id := none }
  match authorIdString author.id with
  | none => false
  | some authorId =>
    match partTimestampOf jsDateSecs part.created_at with
    | none => false
    | some partTimestamp =>
      if partTimestamp == 0 then false
      else
        (author.type == some "admin") && isTargetAdmin authorId adminId &&
          (decide (startTimestamp ≤ partTimestamp) && decide (partTimestamp ≤ endTimestamp))

/-- Result record of the Participation Evaluator. -/
structure ParticipationResult where
  hasParticipation : Bool
  partCount : Nat
deriving DecidableEq

/-- The Participation Evaluator `hasAdminParticipation`: count the
qualifying parts of the conversation; participation holds exactly when the
count is positive. -/
def hasAdminParticipation (jsDateSecs : String → Option Int) (conversation : Conversation)
    (adminId : String) (startTimestamp endTimestamp : Int) : ParticipationResult :=
  let parts := extractParts conversation
  let partCount := parts.countP (partQualifies jsDateSecs adminId startTimestamp endTimestamp)
  { hasParticipation := decide (0 < partCount), partCount := partCount }

/-! ## Conversation Fetcher -/

/-- Base URL of the upstream messaging API. -/
def INTERCOM_API_BASE : String := "https://api.intercom.io"

/-- The request URL built by `fetchConversationWithParts`: the conversation
is requested with the plaintext rendering mode. -/
def conversationRequestUrl (conversationId : String) : String :=
  INTERCOM_API_BASE ++ "/conversations/" ++ conversationId ++ "?display_as=plaintext"

/-- Outcome of the upstream GET for one conversation, as the fetcher can
observe it: the fetch promise rejected (network error), the response was
non-OK (HTTP error), or the response was OK and its body parsed to a
conversation or failed to parse. -/
inductive FetchOutcome where
  | networkError (msg : String)
  | httpError (status : Nat) (body : String)
  | ok (parsed : Except String Conversation)

/-- The body of `fetchConversationWithParts` before its try/catch wrapper:
a rejected fetch or a body-parse failure propagates as an exception, a
non-OK status is logged and yields null (the missing-conversation_parts
warning does not change the value returned). -/
def fetchConversationBody (outcome : FetchOutcome) : Except String (Option Conversation) :=
  match outcome with
  | FetchOutcome.networkError msg => Except.error msg
  | FetchOutcome.httpError _ _ => Except.ok none
  | FetchOutcome.ok (Except.ok data) => Except.ok (some data)
  | FetchOutcome.ok (Except.error e) => Except.error e

/-- The Conversation Fetcher `fetchConversationWithParts`: the try/catch
wrapper absorbs every exception of the body into a null result, so the
caller only ever sees the conversation or null. -/
def fetchConversationWithParts (outcome : FetchOutcome) : Option Conversation :=
  match fetchConversationBody outcome with
  | Except.ok v => v
  | Except.error _ => none

/-! ## Search/Discovery: pages object and cursor extraction -/

/-- The `next` field of the upstream search response's `pages` object, in
the shapes the code distinguishes: a bare string (possibly a URL with an
embedded query string) or a structured object with optional
`starting_after` and `cursor` fields. -/
inductive PagesNext where
  | str (s : String)
  | obj (starting_after : Option String) (cursor : Option String)
deriving DecidableEq

/-- The `pages` object of a search response. -/
structure PagesObj where
  next : Option PagesNext
deriving DecidableEq

/-- One entry of the search response's `conversations` array; only its
`id` is used. -/
structure SearchConv where
  id : String
deriving DecidableEq

/-- The parsed upstream search response: `conversations`, `total_count`
and `pages`, each possibly absent. -/
structure SearchData where
  conversations : Option (List SearchConv)
  total_count : Option Int
  pages : Option PagesObj
deriving DecidableEq

/-- Server-side cursor extraction of the conversations endpoint: take
`pages.next.starting_after` when truthy, else `pages.next.cursor` when
truthy, else nothing.  A `next` that is a bare string has neither field
and extracts to nothing.  The endpoint's `hasMorePages` flag is set
exactly when this extraction succeeds. -/
def extractNextCursor (pages : Option PagesObj) : Option String :=
  let searchPages := pages.getD { next := none }
  match searchPages.next with
  | some (PagesNext.obj sa cu) =>
    if strTruthyOpt sa then sa
    else if strTruthyOpt cu then cu
    else none
  | _ => none

/-! ## Batch Orchestrator -/

/-- Hard cap on candidate conversation ids per request. -/
def MAX_CONVERSATIONS : Nat := 150

/-- Wall-clock budget of the edge function, in milliseconds. -/
def EDGE_FUNCTION_TIMEOUT : Int := 60000

/-- Number of conversations fetched concurrently per batch. -/
def BATCH_SIZE : Nat := 10

/-- One entry of the response's `conversations` array: the hydrated
conversation annotated with its participation part count.  (The JS object
also repeats id/created_at/updated_at and adds derived ISO date strings
for display; those duplicates are not modelled.) -/
structure ResultEntry where
  conversation : Conversation
  participation_part_count : Nat
deriving DecidableEq

/-- The request-scoped accumulators of the batch loop, plus a flag
recording that the loop broke early on the timeout check. -/
structure BatchState where
  conversationsWithParticipation : List ResultEntry
  totalParticipationCount : Nat
  processedCount : Nat
  errorCount : Nat
  stoppedEarly : Bool
deriving DecidableEq

/-- Initial batch-loop accumulators. -/
def initialBatchState : BatchState :=
  { conversationsWithParticipation := []
    totalParticipationCount := 0
    processedCount := 0
    errorCount := 0
    stoppedEarly := false }

/-- Processing of one settled fetch inside a batch: a failed fetch
increments `errorCount`; a fetched conversation increments
`processedCount` and, when the evaluator reports participation, is
appended to the results with its part count added to the running total. -/
def processOne (fetch : String → Option Conversation) (jsDateSecs : String → Option Int)
    (adminId : String) (since before : Int) (st : BatchState) (conversationId : String) :
    BatchState :=
  match fetch conversationId with
  | none => { st with errorCount := st.errorCount + 1 }
  | some conversation =>
    let st1 := { st with processedCount := st.processedCount + 1 }
    let participation := hasAdminParticipation jsDateSecs conversation adminId since before
    if participation.hasParticipation then
      { st1 with
        totalParticipationCount := st1.totalParticipationCount + participation.partCount
        conversationsWithParticipation :=
          st1.conversationsWithParticipation ++
            [{ conversation := conversation
               participation_part_count := participation.partCount }] }
    else st1

/-- Partition worker: `fuel` bounds the number of strides left, as the
loop index `i` is bounded by the id-count. -/
def toBatchesAux : Nat → List String → List (List String)
  | _, [] => []
  | 0, _ :: _ => []
  | fuel + 1, x :: xs =>
    (x :: xs).take BATCH_SIZE :: toBatchesAux fuel ((x :: xs).drop BATCH_SIZE)

/-- Partition of the candidate-id list into consecutive batches of
`BATCH_SIZE` (the loop's `slice(i, i + BATCH_SIZE)` strides). -/
def toBatches (l : List String) : List (List String) :=
  toBatchesAux l.length l

/-- The batch loop of the conversations endpoint.  Before each batch the
elapsed wall-clock time (the `elapsed` oracle, indexed by batch number) is
checked against the budget minus a 5 s buffer; exceeding it breaks out of
the loop.  Otherwise the batch's fetches settle (the `fetch` oracle) and
each result is folded through `processOne`.  The inter-batch 100 ms delay
only spends time and is not modelled beyond the `elapsed` oracle. -/
def runBatchLoop (fetch : String → Option Conversation) (jsDateSecs : String → Option Int)
    (adminId : String) (since before : Int) (elapsed : Nat → Int) :
    List (List String) → Nat → BatchState → BatchState
  | [], _, st => st
  | batch :: rest, batchIdx, st =>
    if elapsed batchIdx > EDGE_FUNCTION_TIMEOUT - 5000 then
      { st with stoppedEarly := true }
    else
      runBatchLoop fetch jsDateSecs adminId since before elapsed rest (batchIdx + 1)
        (batch.foldl (processOne fetch jsDateSecs adminId since before) st)

/-- The JSON body of a successful conversations-endpoint response.  Fields
that are always-emitted keys are plain; the three keys that the
zero-candidate early return leaves out entirely (`processed_count`,
`error_count`, `next_cursor`) are `Option`s in which `none` means the key
is absent from the JSON (for `next_cursor`, `some none` is the key present
with a null value).  The display-only `type` and `date` fields are not
modelled. -/
structure ConversationsResponse where
  conversations : List ResultEntry
  total_count : Nat
  intercom_total_count : Int
  has_more : Bool
  pages : Option PagesObj
  admin_id : String
  participation_count : Nat
  processed_count : Option Nat
  error_count : Option Nat
  next_cursor : Option (Option String)
deriving DecidableEq

/-- The conversations endpoint of the `serve` handler, from the point
where the upstream search response has been parsed: map the search hits to
candidate ids, compute the total estimate (`total_count || ids.length`,
with JS truthiness sending a 0 to the fallback), extract the continuation
cursor, cap the ids at `MAX_CONVERSATIONS`, and either return the
zero-candidate response immediately or run the batch loop and assemble the
full response, whose `has_more` is the extracted-cursor flag OR the
candidate list having reached the cap. -/
def serveConversations (fetch : String → Option Conversation) (jsDateSecs : String → Option Int)
    (elapsed : Nat → Int) (adminId : String) (since before : Int)
    (searchData : SearchData) : ConversationsResponse :=
  let allIds := (searchData.conversations.getD []).map SearchConv.id
  let intercomTotalCount : Int :=
    match searchData.total_count with
    | some n => if n == 0 then (allIds.length : Int) else n
    | none => (allIds.length : Int)
  let nextCursor := extractNextCursor searchData.pages
  let hasMorePages := nextCursor.isSome
  let conversationIds := allIds.take MAX_CONVERSATIONS
  if conversationIds.isEmpty then
    { conversations := []
      total_count := 0
      intercom_total_count := intercomTotalCount
      has_more := false
      pages := searchData.pages
      admin_id := adminId
      participation_count := 0
      processed_count := none
      error_count := none
      next_cursor := none }
  else
    let st := runBatchLoop fetch jsDateSecs adminId since before elapsed
      (toBatches conversationIds) 0 initialBatchState
    { conversations := st.conversationsWithParticipation
      total_count := st.conversationsWithParticipation.length
      intercom_total_count := intercomTotalCount
      has_more := hasMorePages || decide (MAX_CONVERSATIONS ≤ conversationIds.length)
      pages := searchData.pages
      admin_id := adminId
      participation_count := st.totalParticipationCount
      processed_count := some st.processedCount
      error_count := some st.errorCount
      next_cursor := some nextCursor }

/-! ## Client-Side Progressive Loader -/

/-- Hard safety cap of the client page-fetch loop. -/
def maxPages : Nat := 100

/-- Split of a character list at every occurrence of a separator, with JS
String.split semantics (adjacent separators and boundary separators yield
empty fields). -/
def splitOnChar (sep : Char) : List Char → List (List Char)
  | [] => [[]]
  | c :: cs =>
    if c = sep then [] :: splitOnChar sep cs
    else
      match splitOnChar sep cs with
      | [] => [[c]]
      | h :: t => (c :: h) :: t

/-- JS `s.split(sep)` for a one-character separator (the only separators
the loader uses: the question mark, ampersand and equals sign). -/
def jsSplit (sep : Char) (s : String) : List String :=
  (splitOnChar sep s.toList).map String.mk

/-- JS `s.includes(c)` for a one-character needle. -/
def jsIncludes (s : String) (c : Char) : Bool :=
  s.toList.contains c

/-- Lookup of the first value bound to a key in a query string, as
URLSearchParams exposes it (split on ampersands, key before the first
equals sign; percent-decoding is not modelled, the cursors the code
handles are opaque tokens). -/
def parseQueryParam (query : String) (key : String) : Option String :=
  (jsSplit '&' query).findSome? fun kv =>
    match jsSplit '=' kv with
    | [] => none
    | k :: rest => if k == key then some (String.intercalate "=" rest) else none

/-- Client-side extraction of the continuation cursor from `pages.next`: a
bare string containing a question mark is treated as a URL and its
`starting_after` query parameter is looked up; any other bare string is
the cursor itself; a structured object yields
`starting_after || cursor || null` under JS truthiness.  (The try/catch
around the URL parse is not modelled: the string operations cannot
throw.) -/
def clientExtractCursor (next : PagesNext) : Option String :=
  match next with
  | PagesNext.str s =>
    if jsIncludes s '?' then
      match (jsSplit '?' s).get? 1 with
      | some query => parseQueryParam query "starting_after"
      | none => none
    else some s
  | PagesNext.obj sa cu =>
    if strTruthyOpt sa then sa
    else if strTruthyOpt cu then cu
    else none

/-- The body of one page response as the client loop reads it:
`conversations` (absent meaning no page data) and the passed-through
`pages` object. -/
structure ClientPageData where
  conversations : Option (List ResultEntry)
  pages : Option PagesObj
deriving DecidableEq

/-- Outcome of one page request of the client loop: a non-OK response (the
loop throws to `loadConversations` and stops) or parsed page data. -/
inductive PageResult where
  | httpError
  | ok (data : ClientPageData)
deriving DecidableEq

/-- Cursor extracted from one page's data (`data.pages.next`, when
present). -/
def extractedCursor (data : ClientPageData) : Option String :=
  match data.pages with
  | none => none
  | some pg =>
    match pg.next with
    | none => none
    | some n => clientExtractCursor n

/-- Final state of one run of the client loop: pages actually fetched, the
accumulated conversation list, and whether the run ended by throwing on a
failed page request. -/
structure LoopResult where
  pagesFetched : Nat
  accumulated : List ResultEntry
  errored : Bool
deriving DecidableEq

/-- The page-fetch loop of `fetchConversationsProgressively`, with the
sequence of server responses abstracted as the `respond` oracle indexed by
page number.  Each iteration increments the page counter, fetches, appends
the page's conversations to the accumulator, recomputes `hasMore` from the
extracted cursor's truthiness (the `hasMore = !!startingAfter` assignment
together with the trailing `if (!startingAfter) hasMore = false` guard),
breaks when the page carried no conversations, and otherwise loops while
`hasMore` holds and fewer than `maxPages` pages have been fetched. -/
def fetchLoopGo (respond : Nat → PageResult) (hasMore : Bool) (pageCount : Nat)
    (acc : List ResultEntry) : LoopResult :=
  if _h : hasMore = true ∧ pageCount < maxPages then
    match respond (pageCount + 1) with
    | PageResult.httpError => { pagesFetched := pageCount + 1, accumulated := acc, errored := true }
    | PageResult.ok data =>
      let pageConversations := data.conversations.getD []
      let acc2 := acc ++ pageConversations
      let hasMoreNext := strTruthyOpt (extractedCursor data)
      if pageConversations.isEmpty then
        { pagesFetched := pageCount + 1, accumulated := acc2, errored := false }
      else fetchLoopGo respond hasMoreNext (pageCount + 1) acc2
  else { pagesFetched := pageCount, accumulated := acc, errored := false }
termination_by maxPages - pageCount
decreasing_by omega

/-- The client progressive fetch: start the loop with `hasMore = true`,
no pages fetched and an empty accumulator. -/
def fetchConversationsProgressively (respond : Nat → PageResult) : LoopResult :=
  fetchLoopGo respond true 0 []

/-- A page response on which the loop continues: an OK page with at least
one conversation and a truthy extracted cursor. -/
def pageContinues : PageResult → Bool
  | PageResult.httpError => false
  | PageResult.ok data =>
    !(data.conversations.getD []).isEmpty && strTruthyOpt (extractedCursor data)

/-- A page response on which the loop finishes cleanly: an OK page with no
conversations, or one from which no truthy cursor is extracted. -/
def pageEnds : PageResult → Bool
  | PageResult.httpError => false
  | PageResult.ok data =>
    (data.conversations.getD []).isEmpty || !strTruthyOpt (extractedCursor data)

/-! ## Shared client page state -/

/-- The module-level pagination state of the admin-conversations page:
`allConversations` and `currentPage` are process-wide variables shared by
every load. -/
structure LoaderState where
  allConversations : List ResultEntry
  currentPage : Nat
deriving DecidableEq

/-- The writes performed on the shared state, in program order: a fresh
`loadConversations` resets the accumulator and the page index; each page
arrival inside a running `fetchConversationsProgressively` loop appends
its conversations.  The events carry no generation or session token, so
an append is indistinguishable as to which loop issued it. -/
inductive LoaderEvent where
  | resetLoad
  | appendPage (page : List ResultEntry)
deriving DecidableEq

/-- Effect of one event on the shared state. -/
def applyLoaderEvent (st : LoaderState) : LoaderEvent → LoaderState
  | LoaderEvent.resetLoad => { allConversations := [], currentPage := 1 }
  | LoaderEvent.appendPage page =>
    { st with allConversations := st.allConversations ++ page }

/-- Replay of an interleaved sequence of shared-state writes. -/
def runLoader (st : LoaderState) (events : List LoaderEvent) : LoaderState :=
  events.foldl applyLoaderEvent st

/-! ## Claim-side comparison predicates -/

/-- Follows claim C1's words as stated, for comparison against the code: a
part counts when its author type is "admin", its author id equals the
target admin id under string or numeric equality, and its normalized
timestamp lies in the window; only a part missing its author, author id or
created_at is skipped (no JS-truthiness skipping). -/
def claimC1StatedQualifies (jsDateSecs : String → Option Int) (adminId : String)
    (since before : Int) (p : Part) : Bool :=
  match p.author with
  | none => false
  | some author =>
    match author.id, p.created_at with
    | some idv, some createdAt =>
      (author.type == some "admin")
      && (jsToString idv == adminId
          || ((jsParseInt adminId).isSome && (jsParseInt (jsToString idv) == jsParseInt adminId)))
      && (match (match createdAt with
                 | JsPrim.num t => some (normTimestamp t)
                 | JsPrim.str s => jsDateSecs s) with
          | some t => decide (since ≤ t) && decide (t ≤ before)
          | none => false)
    | _, _ => false

/-- Follows the amended claim C1's words: as `claimC1StatedQualifies`, but
a part whose author id or created_at is JS-falsy (the number 0 or the
empty string), whose date string fails to parse, or whose normalized
timestamp is 0, is also skipped.  Written as one flat conjunction of the
claim's conditions, independent of the code's sequential skip order. -/
def claimC1AmendedQualifies (jsDateSecs : String → Option Int) (adminId : String)
    (since before : Int) (p : Part) : Bool :=
  let author := p.author.getD { type := none, id := none }
  (author.type == some "admin")
  && (match author.id with
      | none => false
      | some idv =>
        jsTruthy idv
        && (jsToString idv == adminId
            || ((jsParseInt adminId).isSome
                && (jsParseInt (jsToString idv) == jsParseInt adminId))))
  && (match partTimestampOf jsDateSecs p.created_at with
      | some t => !(t == 0) && decide (since ≤ t) && decide (t ≤ before)
      | none => false)

/-- The code's comparison agrees with the claim's formulation of
string-or-numeric id equality. -/
theorem isTargetAdmin_eq_claim (authorId adminId : String) :
    isTargetAdmin authorId adminId
      = (authorId == adminId
          || ((jsParseInt adminId).isSome && (jsParseInt authorId == jsParseInt adminId))) := by
  unfold isTargetAdmin
  cases jsParseInt adminId <;> cases jsParseInt authorId <;> simp

/-- The sequential skip chain of the evaluator's loop body coincides with
the flat conjunction of the amended claim's conditions. -/
theorem partQualifies_eq_amended (jsDateSecs : String → Option Int) (adminId : String)
    (since before : Int) (p : Part) :
    partQualifies jsDateSecs adminId since before p
      = claimC1AmendedQualifies jsDateSecs adminId since before p := by
  obtain ⟨author, createdAt⟩ := p
  unfold partQualifies claimC1AmendedQualifies authorIdString
  cases author with
  | none => simp
  | some a =>
    obtain ⟨ty, idv⟩ := a
    cases idv with
    | none => simp
    | some v =>
      by_cases htr : jsTruthy v = true
      · simp only [htr, Option.getD_some, if_pos rfl]
        cases hpt : partTimestampOf jsDateSecs createdAt with
        | none => simp [hpt]
        | some t =>
          by_cases ht0 : t = 0
          · subst ht0; simp [hpt]
          · have ht0' : (t == 0) = false := beq_eq_false_iff_ne.mpr ht0
            simp [hpt, ht0', isTargetAdmin_eq_claim, htr,
              Bool.and_assoc, Bool.and_comm, Bool.and_left_comm]
      · simp only [Bool.not_eq_true] at htr
        simp [htr]

/-! ## Theorems for the frozen claims -/

/-- C1 counterexample: a part authored by admin id 0 (numeric) inside the
window, with target admin id "0".  The claim as stated counts it (the ids
are equal both as strings and numerically, the timestamp is in range, and
nothing is missing), but the evaluator skips it because the JS truthiness
test on `author.id` treats 0 like a missing id, so `part_count` is 0 and
`matched` is false. -/
def c1Conv : Conversation :=
  { id := some "c1"
    created_at := none
    updated_at := none
    conversation_parts := some (PartsShape.arr
      [{ author := some { type := some "admin", id := some (JsPrim.num 0) }
         created_at := some (JsPrim.num 100) }]) }

/-- C1 (as stated) is false on the code: on `c1Conv` with admin id "0" and
window [0, 200], the claim's counting rule gives 1 qualifying part, but
`hasAdminParticipation` reports `part_count = 0` and `matched = false`. -/
theorem hasAdminParticipation_claimC1_counterexample :
    (hasAdminParticipation (fun _ => none) c1Conv "0" 0 200).partCount = 0
    ∧ (extractParts c1Conv).countP (claimC1StatedQualifies (fun _ => none) "0" 0 200) = 1
    ∧ (hasAdminParticipation (fun _ => none) c1Conv "0" 0 200).hasParticipation = false := by
  refine ⟨by decide, by decide, by decide⟩

/-- C1 amended: `part_count` equals the number of extracted message parts
satisfying the amended conditions (admin author type, truthy author id
matching the admin id as strings or numerically, truthy created_at whose
normalized timestamp is nonzero and lies in [since, before] inclusive);
each part is judged independently, `matched` holds exactly when
`part_count` is positive, and a qualifying part's timestamp always lies in
the window; numeric author id 123 matches admin id "123" and not "1234". -/
theorem hasAdminParticipation_amended_spec (jsDateSecs : String → Option Int)
    (conversation : Conversation) (adminId : String) (since before : Int) :
    (hasAdminParticipation jsDateSecs conversation adminId since before).partCount
        = (extractParts conversation).countP
            (claimC1AmendedQualifies jsDateSecs adminId since before)
    ∧ (hasAdminParticipation jsDateSecs conversation adminId since before).hasParticipation
        = decide (0 < (hasAdminParticipation jsDateSecs conversation adminId since before).partCount)
    ∧ (∀ p : Part, claimC1AmendedQualifies jsDateSecs adminId since before p = true →
        ∃ t, partTimestampOf jsDateSecs p.created_at = some t
          ∧ t ≠ 0 ∧ since ≤ t ∧ t ≤ before)
    ∧ isTargetAdmin (jsToString (JsPrim.num 123)) "123" = true
    ∧ isTargetAdmin (jsToString (JsPrim.num 123)) "1234" = false := by
  refine ⟨?_, rfl, ?_, by decide, by decide⟩
  · unfold hasAdminParticipation
    exact List.countP_congr fun p _ => by
      rw [partQualifies_eq_amended jsDateSecs adminId since before p]
  · intro p h
    unfold claimC1AmendedQualifies at h
    cases hpt : partTimestampOf jsDateSecs p.created_at with
    | none => rw [hpt] at h; simp at h
    | some t =>
      rw [hpt] at h
      simp only [Bool.and_eq_true, Bool.not_eq_true', beq_eq_false_iff_ne,
        decide_eq_true_eq] at h
      refine ⟨t, rfl, ?_, ?_, ?_⟩ <;> tauto

/-- A part that the amended C1 conditions accept, used to instantiate the
qualifying-part implication. -/
def c1QualPart : Part :=
  { author := some { type := some "admin", id := some (JsPrim.num 123) }
    created_at := some (JsPrim.num 100) }

/-- An empty hydrated conversation (no parts field at all). -/
def emptyConversation : Conversation :=
  { id := none, created_at := none, updated_at := none, conversation_parts := none }

/-- Witness for the amended C1 theorem at a concrete qualifying part. -/
theorem hasAdminParticipation_amended_spec_witness :
    claimC1AmendedQualifies (fun _ => none) "123" 0 200 c1QualPart = true
    ∧ ∃ t, partTimestampOf (fun _ => none) c1QualPart.created_at = some t
        ∧ t ≠ 0 ∧ 0 ≤ t ∧ t ≤ 200 :=
  ⟨by decide,
   (hasAdminParticipation_amended_spec (fun _ => none) emptyConversation "123" 0 200).2.2.1
     c1QualPart (by decide)⟩

/-- C4: the part-timestamp normalization maps every value below
10,000,000,000 to itself (seconds) and every value at or above it to its
floor division by 1000 (milliseconds); the seconds input 1700000000 and
the milliseconds input 1700000000000 normalize to the same value, and the
evaluator judges a part identically under either representation. -/
theorem normTimestamp_spec (t : Int) :
    (t < 10000000000 → normTimestamp t = t)
    ∧ (10000000000 ≤ t → normTimestamp t = t.fdiv 1000)
    ∧ normTimestamp 1700000000 = normTimestamp 1700000000000
    ∧ (∀ (jsDateSecs : String → Option Int) (author : Option Author) (adminId : String)
        (since before : Int),
        partQualifies jsDateSecs adminId since before
            { author := author, created_at := some (JsPrim.num 1700000000) }
          = partQualifies jsDateSecs adminId since before
              { author := author, created_at := some (JsPrim.num 1700000000000) }) := by
  refine ⟨?_, ?_, by decide, ?_⟩
  · intro h; simp [normTimestamp, h]
  · intro h; rw [normTimestamp, if_neg (by omega)]
  · intro jsDateSecs author adminId since before
    have h1 : partTimestampOf jsDateSecs (some (JsPrim.num 1700000000)) = some 1700000000 := rfl
    have h2 : partTimestampOf jsDateSecs (some (JsPrim.num 1700000000000)) = some 1700000000 :=
      rfl
    unfold partQualifies
    rw [h1, h2]

/-- Witness for the normalization branches at concrete inputs. -/
theorem normTimestamp_spec_witness :
    normTimestamp 1700000000 = 1700000000
    ∧ normTimestamp 1700000000000 = Int.fdiv 1700000000000 1000 :=
  ⟨(normTimestamp_spec 1700000000).1 (by decide),
   (normTimestamp_spec 1700000000000).2.1 (by decide)⟩

/-- C7: the Conversation Fetcher never throws to its caller, and its
result is fully determined by the upstream outcome: on an OK response with
a parsable body it returns exactly that hydrated conversation, and on
every failure — non-OK HTTP status, network error, or body-parse error —
it returns null; the request URL it builds always asks for the plaintext
rendering. -/
theorem fetchConversationWithParts_never_throws :
    (∀ c : Conversation,
        fetchConversationWithParts (FetchOutcome.ok (Except.ok c)) = some c)
    ∧ (∀ status : Nat, ∀ body : String,
        fetchConversationWithParts (FetchOutcome.httpError status body) = none)
    ∧ (∀ msg : String,
        fetchConversationWithParts (FetchOutcome.networkError msg) = none)
    ∧ (∀ parseError : String,
        fetchConversationWithParts (FetchOutcome.ok (Except.error parseError)) = none)
    ∧ (∀ conversationId : String,
        ∃ p, conversationRequestUrl conversationId = p ++ "?display_as=plaintext") := by
  refine ⟨fun c => rfl, fun status body => rfl, fun msg => rfl, fun parseError => rfl, ?_⟩
  intro conversationId
  exact ⟨INTERCOM_API_BASE ++ "/conversations/" ++ conversationId, rfl⟩

/-- C9: a fresh load resets the shared accumulator state, and because the
appended page events carry no generation or session token, every append
arriving after the reset — including one from a still-running prior loop —
lands in the new load's accumulator: the replayed state after any history
followed by a reset equals the replay of only the post-reset events from
the fresh state, and one more append extends exactly that accumulator. -/
theorem loaderState_reset_reentrancy (st : LoaderState)
    (history future : List LoaderEvent) (page : List ResultEntry) :
    applyLoaderEvent st LoaderEvent.resetLoad = { allConversations := [], currentPage := 1 }
    ∧ runLoader st (history ++ LoaderEvent.resetLoad :: future)
        = runLoader { allConversations := [], currentPage := 1 } future
    ∧ (runLoader { allConversations := [], currentPage := 1 }
          (future ++ [LoaderEvent.appendPage page])).allConversations
        = (runLoader { allConversations := [], currentPage := 1 } future).allConversations
            ++ page := by
  refine ⟨rfl, ?_, ?_⟩
  · simp [runLoader, List.foldl_append, applyLoaderEvent]
  · simp [runLoader, List.foldl_append, applyLoaderEvent]

/-! ## Batch-loop invariants -/

/-- Preservation of a predicate along a left fold. -/
theorem foldl_preserve {α σ : Type} (f : σ → α → σ) (P : σ → Prop)
    (hf : ∀ s a, P s → P (f s a)) : ∀ (l : List α) (s : σ), P s → P (l.foldl f s) := by
  intro l
  induction l with
  | nil => intro s hs; exact hs
  | cons a l ih => intro s hs; exact ih (f s a) (hf s a hs)

/-- Processing one settled fetch appends at most one result entry. -/
theorem processOne_length_le (fetch : String → Option Conversation)
    (jsDateSecs : String → Option Int) (adminId : String) (since before : Int)
    (st : BatchState) (conversationId : String) :
    (processOne fetch jsDateSecs adminId since before st conversationId).conversationsWithParticipation.length
      ≤ st.conversationsWithParticipation.length + 1 := by
  unfold processOne
  cases fetch conversationId with
  | none => simp
  | some conversation =>
    dsimp only
    split
    · simp
    · simp

/-- One batch appends at most as many result entries as it has ids. -/
theorem foldl_processOne_length (fetch : String → Option Conversation)
    (jsDateSecs : String → Option Int) (adminId : String) (since before : Int) :
    ∀ (batch : List String) (st : BatchState),
    ((batch.foldl (processOne fetch jsDateSecs adminId since before) st).conversationsWithParticipation.length)
      ≤ st.conversationsWithParticipation.length + batch.length := by
  intro batch
  induction batch with
  | nil => intro st; simp
  | cons a l ih =>
    intro st
    have h1 := ih (processOne fetch jsDateSecs adminId since before st a)
    have h2 := processOne_length_le fetch jsDateSecs adminId since before st a
    simp only [List.foldl_cons, List.length_cons]
    omega

/-- The whole batch loop appends at most as many result entries as the
batches hold ids. -/
theorem runBatchLoop_length (fetch : String → Option Conversation)
    (jsDateSecs : String → Option Int) (adminId : String) (since before : Int)
    (elapsed : Nat → Int) :
    ∀ (bs : List (List String)) (batchIdx : Nat) (st : BatchState),
    (runBatchLoop fetch jsDateSecs adminId since before elapsed bs batchIdx st).conversationsWithParticipation.length
      ≤ st.conversationsWithParticipation.length + (bs.map List.length).sum := by
  intro bs
  induction bs with
  | nil => intro batchIdx st; simp [runBatchLoop]
  | cons batch rest ih =>
    intro batchIdx st
    rw [runBatchLoop]
    split
    · simp
    · have h1 := ih (batchIdx + 1)
        (batch.foldl (processOne fetch jsDateSecs adminId since before) st)
      have h2 := foldl_processOne_length fetch jsDateSecs adminId since before batch st
      simp only [List.map_cons, List.sum_cons]
      omega

/-- The batch partition worker preserves the total number of ids when
given enough fuel. -/
theorem toBatchesAux_length_sum : ∀ (fuel : Nat) (l : List String), l.length ≤ fuel →
    ((toBatchesAux fuel l).map List.length).sum = l.length := by
  intro fuel
  induction fuel with
  | zero =>
    intro l h
    have h0 : l = [] := List.eq_nil_of_length_eq_zero (Nat.le_zero.mp h)
    subst h0
    simp [toBatchesAux]
  | succ n ih =>
    intro l h
    cases l with
    | nil => simp [toBatchesAux]
    | cons x xs =>
      rw [toBatchesAux]
      simp only [List.map_cons, List.sum_cons]
      rw [ih ((x :: xs).drop BATCH_SIZE) (by simp [BATCH_SIZE] at h ⊢; omega)]
      have htd := congrArg List.length (List.take_append_drop BATCH_SIZE (x :: xs))
      simp only [List.length_append] at htd
      omega

/-- The batch partition preserves the total number of ids. -/
theorem toBatches_sum (l : List String) : ((toBatches l).map List.length).sum = l.length :=
  toBatchesAux_length_sum l.length l le_rfl

/-- Invariant tying the running participation total to the accumulated
result entries. -/
def partSumInv (st : BatchState) : Prop :=
  st.totalParticipationCount
    = (st.conversationsWithParticipation.map ResultEntry.participation_part_count).sum

/-- `processOne` preserves the participation-total invariant. -/
theorem processOne_partSumInv (fetch : String → Option Conversation)
    (jsDateSecs : String → Option Int) (adminId : String) (since before : Int)
    (st : BatchState) (conversationId : String) (h : partSumInv st) :
    partSumInv (processOne fetch jsDateSecs adminId since before st conversationId) := by
  unfold partSumInv at *
  unfold processOne
  cases fetch conversationId with
  | none => simpa using h
  | some conversation =>
    dsimp only
    split
    · simp [List.map_append, List.sum_append, h]
    · simpa using h

/-- The batch loop preserves the participation-total invariant. -/
theorem runBatchLoop_partSumInv (fetch : String → Option Conversation)
    (jsDateSecs : String → Option Int) (adminId : String) (since before : Int)
    (elapsed : Nat → Int) :
    ∀ (bs : List (List String)) (batchIdx : Nat) (st : BatchState), partSumInv st →
    partSumInv (runBatchLoop fetch jsDateSecs adminId since before elapsed bs batchIdx st) := by
  intro bs
  induction bs with
  | nil => intro batchIdx st h; simpa [runBatchLoop] using h
  | cons batch rest ih =>
    intro batchIdx st h
    rw [runBatchLoop]
    split
    · unfold partSumInv at *; simpa using h
    · exact ih (batchIdx + 1) _
        (foldl_preserve _ _ (fun s a hs => processOne_partSumInv fetch jsDateSecs adminId
          since before s a hs) batch st h)

/-- C3: the orchestrator never returns more conversations than discovery
supplied candidate ids, and the response's `participation_count` is the
sum of `participation_part_count` over the returned conversations. -/
theorem serveConversations_count_bound_and_participation_sum
    (fetch : String → Option Conversation) (jsDateSecs : String → Option Int)
    (elapsed : Nat → Int) (adminId : String) (since before : Int) (searchData : SearchData) :
    (serveConversations fetch jsDateSecs elapsed adminId since before searchData).conversations.length
      ≤ (searchData.conversations.getD []).length
    ∧ (serveConversations fetch jsDateSecs elapsed adminId since before searchData).participation_count
      = ((serveConversations fetch jsDateSecs elapsed adminId since before
            searchData).conversations.map ResultEntry.participation_part_count).sum := by
  simp only [serveConversations]
  split
  · constructor
    · simp
    · simp
  · constructor
    · dsimp only
      have h1 := runBatchLoop_length fetch jsDateSecs adminId since before elapsed
        (toBatches (((searchData.conversations.getD []).map SearchConv.id).take MAX_CONVERSATIONS))
        0 initialBatchState
      rw [toBatches_sum] at h1
      have h2 := List.length_take MAX_CONVERSATIONS
        ((searchData.conversations.getD []).map SearchConv.id)
      have h3 : ((searchData.conversations.getD []).map SearchConv.id).length
          = (searchData.conversations.getD []).length := List.length_map _ _
      have h0 : initialBatchState.conversationsWithParticipation.length = 0 := rfl
      omega
    · have h3 := runBatchLoop_partSumInv fetch jsDateSecs adminId since before elapsed
        (toBatches (((searchData.conversations.getD []).map SearchConv.id).take MAX_CONVERSATIONS))
        0 initialBatchState (by simp [partSumInv, initialBatchState])
      unfold partSumInv at h3
      simpa using h3

/-- Shared helper: on the nonempty-candidate path the response's
`has_more` is exactly the extracted-cursor flag OR the candidate-id count
having reached the `MAX_CONVERSATIONS` cap. -/
theorem serveConversations_has_more_formula (fetch : String → Option Conversation)
    (jsDateSecs : String → Option Int) (elapsed : Nat → Int) (adminId : String)
    (since before : Int) (searchData : SearchData)
    (hne : ((((searchData.conversations.getD []).map SearchConv.id).take
        MAX_CONVERSATIONS)).isEmpty = false) :
    (serveConversations fetch jsDateSecs elapsed adminId since before searchData).has_more
      = ((extractNextCursor searchData.pages).isSome
          || decide (MAX_CONVERSATIONS
              ≤ ((searchData.conversations.getD []).map SearchConv.id).length)) := by
  simp only [serveConversations, hne, Bool.false_eq_true, if_false]
  have h2 := List.length_take MAX_CONVERSATIONS
    ((searchData.conversations.getD []).map SearchConv.id)
  congr 1
  rw [h2]
  by_cases hc : MAX_CONVERSATIONS ≤ ((searchData.conversations.getD []).map SearchConv.id).length
  · simp [hc, Nat.le_min]
  · simp [hc, Nat.le_min]

/-- C6 counterexample: with zero candidates from discovery, the early
return's JSON carries no `processed_count`, `error_count` or `next_cursor`
key at all, so the claimed full field set is absent, while the fields it
does carry match the code's zero-candidate literal. -/
def c6EmptySearch : SearchData :=
  { conversations := some [], total_count := none, pages := none }

/-- C6 (as stated) is false on the code: the zero-candidate response omits
`processed_count`, `error_count` and `next_cursor`. -/
theorem serveConversations_fields_counterexample :
    (serveConversations (fun _ => none) (fun _ => none) (fun _ => 0) "8742044" 0 0
        c6EmptySearch).processed_count = none
    ∧ (serveConversations (fun _ => none) (fun _ => none) (fun _ => 0) "8742044" 0 0
        c6EmptySearch).error_count = none
    ∧ (serveConversations (fun _ => none) (fun _ => none) (fun _ => 0) "8742044" 0 0
        c6EmptySearch).next_cursor = none
    ∧ (serveConversations (fun _ => none) (fun _ => none) (fun _ => 0) "8742044" 0 0
        c6EmptySearch).conversations = []
    ∧ (serveConversations (fun _ => none) (fun _ => none) (fun _ => 0) "8742044" 0 0
        c6EmptySearch).total_count = 0
    ∧ (serveConversations (fun _ => none) (fun _ => none) (fun _ => 0) "8742044" 0 0
        c6EmptySearch).has_more = false
    ∧ (serveConversations (fun _ => none) (fun _ => none) (fun _ => 0) "8742044" 0 0
        c6EmptySearch).participation_count = 0 := by
  refine ⟨by decide, by decide, by decide, by decide, by decide, by decide, by decide⟩

/-- C6 amended: on the nonempty-candidate path the response carries all of
the contract's keys (`processed_count`, `error_count` and `next_cursor`
included, besides the always-present `conversations`, `total_count`,
`intercom_total_count`, `has_more` and `participation_count` fields); the
zero-candidate early return instead omits `processed_count`, `error_count`
and `next_cursor`. -/
theorem serveConversations_response_fields_amended (fetch : String → Option Conversation)
    (jsDateSecs : String → Option Int) (elapsed : Nat → Int) (adminId : String)
    (since before : Int) (searchData : SearchData) :
    (((((searchData.conversations.getD []).map SearchConv.id).take
          MAX_CONVERSATIONS)).isEmpty = false →
      (serveConversations fetch jsDateSecs elapsed adminId since before
          searchData).processed_count.isSome = true
      ∧ (serveConversations fetch jsDateSecs elapsed adminId since before
          searchData).error_count.isSome = true
      ∧ (serveConversations fetch jsDateSecs elapsed adminId since before
          searchData).next_cursor.isSome = true)
    ∧ (((((searchData.conversations.getD []).map SearchConv.id).take
          MAX_CONVERSATIONS)).isEmpty = true →
      (serveConversations fetch jsDateSecs elapsed adminId since before
          searchData).processed_count = none
      ∧ (serveConversations fetch jsDateSecs elapsed adminId since before
          searchData).error_count = none
      ∧ (serveConversations fetch jsDateSecs elapsed adminId since before
          searchData).next_cursor = none) := by
  constructor
  · intro h
    simp [serveConversations, h]
  · intro h
    simp [serveConversations, h]

/-- A discovery result with a single candidate id. -/
def c6OneSearch : SearchData :=
  { conversations := some [{ id := "cid1" }], total_count := none, pages := none }

/-- Witness for the amended C6 theorem on a one-candidate input. -/
theorem serveConversations_response_fields_witness :
    (serveConversations (fun _ => none) (fun _ => none) (fun _ => 0) "8742044" 0 0
        c6OneSearch).processed_count.isSome = true
    ∧ (serveConversations (fun _ => none) (fun _ => none) (fun _ => 0) "8742044" 0 0
        c6OneSearch).error_count.isSome = true
    ∧ (serveConversations (fun _ => none) (fun _ => none) (fun _ => 0) "8742044" 0 0
        c6OneSearch).next_cursor.isSome = true :=
  (serveConversations_response_fields_amended (fun _ => none) (fun _ => none) (fun _ => 0)
    "8742044" 0 0 c6OneSearch).1 (by decide)

/-- C10: on every nonempty-candidate response, `has_more` holds exactly
when a continuation cursor was extracted from the upstream search response
or the candidate-id count reached the `MAX_CONVERSATIONS` cap. -/
theorem serveConversations_has_more_iff (fetch : String → Option Conversation)
    (jsDateSecs : String → Option Int) (elapsed : Nat → Int) (adminId : String)
    (since before : Int) (searchData : SearchData)
    (hne : ((((searchData.conversations.getD []).map SearchConv.id).take
        MAX_CONVERSATIONS)).isEmpty = false) :
    (serveConversations fetch jsDateSecs elapsed adminId since before searchData).has_more
      = ((extractNextCursor searchData.pages).isSome
          || decide (MAX_CONVERSATIONS
              ≤ ((searchData.conversations.getD []).map SearchConv.id).length)) :=
  serveConversations_has_more_formula fetch jsDateSecs elapsed adminId since before searchData hne

/-- A discovery result with a full page of 150 candidate ids and no
continuation cursor. -/
def c10Search : SearchData :=
  { conversations := some (List.replicate 150 { id := "cid" })
    total_count := none
    pages := none }

set_option maxRecDepth 8000 in
/-- Witness for C10: a full 150-candidate page without any upstream next
cursor still yields `has_more = true`. -/
theorem serveConversations_has_more_iff_witness :
    (serveConversations (fun _ => none) (fun _ => none) (fun _ => 0) "8742044" 0 0
        c10Search).has_more = true := by
  rw [serveConversations_has_more_iff (fun _ => none) (fun _ => none) (fun _ => 0)
    "8742044" 0 0 c10Search (by decide)]
  decide

/-- C2 counterexample input: 20 candidate ids (two batches), a time oracle
that is under budget before the first batch and over the 55 s line before
the second, every fetch failing, and no upstream cursor. -/
def c2Search : SearchData :=
  { conversations := some (List.replicate 20 { id := "cid" })
    total_count := none
    pages := none }

/-- Elapsed-time oracle for the C2 counterexample run. -/
def c2Elapsed : Nat → Int := fun batchIdx => if batchIdx == 0 then 0 else 56000

/-- C2 (as stated) is false on the code: on the `c2Search` run the batch
loop stops early on the timeout check with 10 of the 20 candidates never
attempted, yet the response reports `has_more = false` (no upstream cursor
was extracted and the candidate count is below the cap), silently
truncating the result. -/
theorem serveConversations_timeout_counterexample :
    (runBatchLoop (fun _ => none) (fun _ => none) "8742044" 0 0 c2Elapsed
        (toBatches (((c2Search.conversations.getD []).map SearchConv.id).take
          MAX_CONVERSATIONS)) 0 initialBatchState).stoppedEarly = true
    ∧ (runBatchLoop (fun _ => none) (fun _ => none) "8742044" 0 0 c2Elapsed
        (toBatches (((c2Search.conversations.getD []).map SearchConv.id).take
          MAX_CONVERSATIONS)) 0 initialBatchState).processedCount
      + (runBatchLoop (fun _ => none) (fun _ => none) "8742044" 0 0 c2Elapsed
        (toBatches (((c2Search.conversations.getD []).map SearchConv.id).take
          MAX_CONVERSATIONS)) 0 initialBatchState).errorCount = 10
    ∧ (((c2Search.conversations.getD []).map SearchConv.id).take MAX_CONVERSATIONS).length = 20
    ∧ (serveConversations (fun _ => none) (fun _ => none) c2Elapsed "8742044" 0 0
        c2Search).has_more = false := by
  refine ⟨by decide, by decide, by decide, by decide⟩

/-- C2 amended: when the batch loop stops early on the wall-clock check
with candidate ids left unattempted, the response's `has_more` is still
just the extracted-cursor flag OR the candidate count having reached the
cap — the early stop itself never forces `has_more = true`. -/
theorem serveConversations_timeout_hasMore_amended (fetch : String → Option Conversation)
    (jsDateSecs : String → Option Int) (elapsed : Nat → Int) (adminId : String)
    (since before : Int) (searchData : SearchData)
    (hne : ((((searchData.conversations.getD []).map SearchConv.id).take
        MAX_CONVERSATIONS)).isEmpty = false)
    (_hstop : (runBatchLoop fetch jsDateSecs adminId since before elapsed
        (toBatches (((searchData.conversations.getD []).map SearchConv.id).take
          MAX_CONVERSATIONS)) 0 initialBatchState).stoppedEarly = true)
    (_hrem : (runBatchLoop fetch jsDateSecs adminId since before elapsed
        (toBatches (((searchData.conversations.getD []).map SearchConv.id).take
          MAX_CONVERSATIONS)) 0 initialBatchState).processedCount
      + (runBatchLoop fetch jsDateSecs adminId since before elapsed
        (toBatches (((searchData.conversations.getD []).map SearchConv.id).take
          MAX_CONVERSATIONS)) 0 initialBatchState).errorCount
      < (((searchData.conversations.getD []).map SearchConv.id).take
          MAX_CONVERSATIONS).length) :
    (serveConversations fetch jsDateSecs elapsed adminId since before searchData).has_more
      = ((extractNextCursor searchData.pages).isSome
          || decide (MAX_CONVERSATIONS
              ≤ ((searchData.conversations.getD []).map SearchConv.id).length)) :=
  serveConversations_has_more_formula fetch jsDateSecs elapsed adminId since before searchData hne

/-- Witness for the amended C2 theorem on the early-stopping run. -/
theorem serveConversations_timeout_hasMore_amended_witness :
    (serveConversations (fun _ => none) (fun _ => none) c2Elapsed "8742044" 0 0
        c2Search).has_more
      = ((extractNextCursor c2Search.pages).isSome
          || decide (MAX_CONVERSATIONS
              ≤ ((c2Search.conversations.getD []).map SearchConv.id).length)) :=
  serveConversations_timeout_hasMore_amended (fun _ => none) (fun _ => none) c2Elapsed
    "8742044" 0 0 c2Search (by decide) (by decide) (by decide)

/-- C5 (as stated) is false on the code: when the upstream search
response's `pages.next` carries the cursor as a bare string, the
server-side discovery stage extracts nothing — `nextCursor` stays null and
`hasMorePages` (the is-some view of the extraction) stays false. -/
theorem extractNextCursor_bare_string_counterexample :
    extractNextCursor (some { next := some (PagesNext.str "cur123") }) = none
    ∧ (extractNextCursor (some { next := some (PagesNext.str "cur123") })).isSome = false :=
  ⟨rfl, rfl⟩

/-- C5 amended: the server-side discovery stage extracts the continuation
cursor (and thereby sets its has-more flag) only from the structured
object forms — a truthy `starting_after` field, else a truthy `cursor`
field — and extracts nothing from a bare-string `next`; the bare-string
and query-string-embedded forms are instead handled by the client-side
loader's extraction, which covers all three shapes. -/
theorem nextCursor_extraction_amended :
    (∀ (s : String) (cu : Option String), s ≠ "" →
        extractNextCursor (some { next := some (PagesNext.obj (some s) cu) }) = some s)
    ∧ (∀ (sa : Option String) (c : String), strTruthyOpt sa = false → c ≠ "" →
        extractNextCursor (some { next := some (PagesNext.obj sa (some c)) }) = some c)
    ∧ (∀ s : String, extractNextCursor (some { next := some (PagesNext.str s) }) = none)
    ∧ (∀ s : String, jsIncludes s '?' = false →
        clientExtractCursor (PagesNext.str s) = some s)
    ∧ clientExtractCursor (PagesNext.str
        "https://api.intercom.io/conversations/search?starting_after=abc123&per_page=150")
      = some "abc123"
    ∧ (∀ (s : String) (cu : Option String), s ≠ "" →
        clientExtractCursor (PagesNext.obj (some s) cu) = some s)
    ∧ (∀ (sa : Option String) (c : String), strTruthyOpt sa = false → c ≠ "" →
        clientExtractCursor (PagesNext.obj sa (some c)) = some c) := by
  refine ⟨?_, ?_, ?_, ?_, by decide, ?_, ?_⟩
  · intro s cu h
    simp [extractNextCursor, strTruthyOpt, h]
  · intro sa c h1 h2
    simp only [extractNextCursor, Option.getD_some, h1, Bool.false_eq_true, if_false]
    simp [strTruthyOpt, h2]
  · intro s
    rfl
  · intro s h
    simp [clientExtractCursor, h]
  · intro s cu h
    simp [clientExtractCursor, strTruthyOpt, h]
  · intro sa c h1 h2
    simp only [clientExtractCursor, h1, Bool.false_eq_true, if_false]
    simp [strTruthyOpt, h2]

/-- Witness for the amended C5 theorem on concrete tokens of two shapes. -/
theorem nextCursor_extraction_amended_witness :
    extractNextCursor (some { next := some (PagesNext.obj (some "curX") none) }) = some "curX"
    ∧ clientExtractCursor (PagesNext.str "plaincursor") = some "plaincursor" :=
  ⟨nextCursor_extraction_amended.1 "curX" none (by decide),
   nextCursor_extraction_amended.2.2.2.1 "plaincursor" (by decide)⟩

/-- The client page loop never exceeds the `maxPages` safety cap,
whatever the server responses are. -/
theorem fetchLoopGo_pages_le (respond : Nat → PageResult) :
    ∀ (n : Nat) (hasMore : Bool) (pageCount : Nat) (acc : List ResultEntry),
    maxPages - pageCount ≤ n → pageCount ≤ maxPages →
    (fetchLoopGo respond hasMore pageCount acc).pagesFetched ≤ maxPages := by
  intro n
  induction n with
  | zero =>
    intro hasMore pageCount acc hn hpc
    rw [fetchLoopGo]
    split
    · rename_i h
      exact absurd h.2 (by omega)
    · simpa using hpc
  | succ n ih =>
    intro hasMore pageCount acc hn hpc
    rw [fetchLoopGo]
    split
    · rename_i h
      cases hr : respond (pageCount + 1) with
      | httpError => simp; omega
      | ok data =>
        simp only
        split
        · simp; omega
        · exact ih _ (pageCount + 1) _ (by omega) (by omega)
    · simpa using hpc

/-- When pages 1..k-1 continue and page k ends the loop cleanly, the loop
run from any earlier page counter stops exactly at page k. -/
theorem fetchLoopGo_exit (respond : Nat → PageResult) (k : Nat) (hk : k ≤ maxPages)
    (hend : pageEnds (respond k) = true) :
    ∀ (d pageCount : Nat) (acc : List ResultEntry), pageCount + d + 1 = k →
    (∀ j, pageCount < j → j < k → pageContinues (respond j) = true) →
    (fetchLoopGo respond true pageCount acc).pagesFetched = k := by
  intro d
  induction d with
  | zero =>
    intro pageCount acc hpc hcont
    rw [fetchLoopGo, dif_pos ⟨rfl, by omega⟩]
    have hk1 : pageCount + 1 = k := by omega
    rw [hk1]
    cases hr : respond k with
    | httpError => simp [pageEnds, hr] at hend
    | ok data =>
      rw [hr] at hend
      simp only [pageEnds, Bool.or_eq_true, Bool.not_eq_true'] at hend
      by_cases he : (data.conversations.getD []).isEmpty = true
      · simp [he]
      · have hcur : strTruthyOpt (extractedCursor data) = false := by tauto
        simp only [he, hcur]
        simp only [Bool.false_eq_true, if_false]
        rw [fetchLoopGo, dif_neg (by simp)]
  | succ d ih =>
    intro pageCount acc hpc hcont
    rw [fetchLoopGo, dif_pos ⟨rfl, by omega⟩]
    have hc1 : pageContinues (respond (pageCount + 1)) = true :=
      hcont (pageCount + 1) (by omega) (by omega)
    cases hr : respond (pageCount + 1) with
    | httpError => simp [pageContinues, hr] at hc1
    | ok data =>
      rw [hr] at hc1
      simp only [pageContinues, Bool.and_eq_true, Bool.not_eq_true'] at hc1
      simp only [hc1.1, hc1.2, Bool.false_eq_true, if_false]
      exact ih (pageCount + 1) _ (by omega) (fun j h1 h2 => hcont j (by omega) h2)

/-- C8: for every sequence of server responses (cursor loops included),
the progressive loader fetches at most `maxPages` pages; and whenever
pages 1..k-1 continue while page k yields no conversations or no
extractable cursor, the loader stops after exactly k pages. -/
theorem fetchConversationsProgressively_terminates (respond : Nat → PageResult) :
    (fetchConversationsProgressively respond).pagesFetched ≤ maxPages
    ∧ (∀ k : Nat, 1 ≤ k → k ≤ maxPages →
        (∀ j, 1 ≤ j → j < k → pageContinues (respond j) = true) →
        pageEnds (respond k) = true →
        (fetchConversationsProgressively respond).pagesFetched = k) := by
  constructor
  · exact fetchLoopGo_pages_le respond maxPages true 0 [] (by omega) (by omega)
  · intro k hk1 hk2 hcont hend
    unfold fetchConversationsProgressively
    exact fetchLoopGo_exit respond k hk2 hend (k - 1) 0 [] (by omega)
      (fun j h1 h2 => hcont j (by omega) h2)

/-- A result entry used to build a concrete page response. -/
def c8Entry : ResultEntry :=
  { conversation := emptyConversation, participation_part_count := 0 }

/-- A concrete response sequence: page 1 carries one conversation and an
object-form cursor, every later page is empty. -/
def c8Respond : Nat → PageResult := fun j =>
  if j == 1 then
    PageResult.ok
      { conversations := some [c8Entry]
        pages := some { next := some (PagesNext.obj (some "next1") none) } }
  else PageResult.ok { conversations := some [], pages := none }

/-- Witness for C8 on the concrete response sequence: the cap holds and
the loop stops after exactly 2 pages. -/
theorem fetchConversationsProgressively_terminates_witness :
    (fetchConversationsProgressively c8Respond).pagesFetched ≤ maxPages
    ∧ (fetchConversationsProgressively c8Respond).pagesFetched = 2 :=
  ⟨(fetchConversationsProgressively_terminates c8Respond).1,
   (fetchConversationsProgressively_terminates c8Respond).2 2 (by omega) (by decide)
     (fun j h1 h2 => by
       have hj : j = 1 := by omega
       subst hj
       decide)
     (by decide)⟩

end WebQms
